import Mathlib

set_option maxHeartbeats 1000000

namespace RevmJit

/-!
Shallow embedding of crates/revm-jit/src/compiler.rs (the EVM JIT translator).

The translator walks the analyzed opcode sequence and, for each opcode,
emits backend IR: a gas-deduction guard, stack overflow/underflow guards,
and the per-opcode lowering. We embed the runtime semantics of the emitted
code as an executable interpreter over an explicit machine state
(stack contents and the gas-used cell), mirroring the helper structure of
the source (pushn, popn, dup, swap, gas_cost_imm, build_failure), plus a
translation-time model of the places where translation itself can panic
(unchecked indexing of op_blocks in the JUMP/JUMPI arm).

Parts of the repository outside src (the Bytecode analyzer, the opcode gas
table and the Builder op semantics) are modelled from the spec; each such
definition carries a doc comment saying so.
-/

/-- Mirrors `const STACK_CAP: usize = 1024`. -/
def STACK_CAP : Nat := 1024

/-- A 256-bit EVM word, kept as a natural number reduced modulo 2 ^ 256 by
the arithmetic operations. -/
abbrev Word := Nat

/-- The modulus of 256-bit machine arithmetic. -/
def WORD_MOD : Nat := 2 ^ 256

namespace op

/-- Opcode byte values, from `revm_interpreter::opcode`. -/
def STOP : Nat := 0x00
def ADD : Nat := 0x01
def MUL : Nat := 0x02
def SUB : Nat := 0x03
def DIV : Nat := 0x04
def SDIV : Nat := 0x05
def MOD : Nat := 0x06
def SMOD : Nat := 0x07
def LT : Nat := 0x10
def GT : Nat := 0x11
def SLT : Nat := 0x12
def SGT : Nat := 0x13
def EQ : Nat := 0x14
def ISZERO : Nat := 0x15
def AND : Nat := 0x16
def OR : Nat := 0x17
def XOR : Nat := 0x18
def NOT : Nat := 0x19
def SHL : Nat := 0x1b
def SHR : Nat := 0x1c
def SAR : Nat := 0x1d
def POP : Nat := 0x50
def JUMP : Nat := 0x56
def JUMPI : Nat := 0x57
def PC : Nat := 0x58
def JUMPDEST : Nat := 0x5b
def PUSH0 : Nat := 0x5f
def PUSH1 : Nat := 0x60
def PUSH32 : Nat := 0x7f
def DUP1 : Nat := 0x80
def DUP16 : Nat := 0x8f
def SWAP1 : Nat := 0x90
def SWAP16 : Nat := 0x9f
def INVALID : Nat := 0xfe

end op

/-- The subset of `revm_interpreter::InstructionResult` the translator emits. -/
inductive InstructionResult where
  | stop
  | stackOverflow
  | stackUnderflow
  | outOfGas
  | invalidJump
  | invalidFEOpcode
  | notActivated
  | opcodeNotFound
deriving DecidableEq

/-- Mirrors `OpcodeFlags` (bit set on each analyzed opcode). -/
structure OpcodeFlags where
  disabled : Bool
  skip_logic : Bool
  skip_gas : Bool
  static_jump : Bool
  invalid_jump : Bool
deriving DecidableEq

/-- The empty flag set. -/
def noFlags : OpcodeFlags := ⟨false, false, false, false, false⟩

/-- The flag set of a resolved static jump (STATIC_JUMP set, INVALID_JUMP clear). -/
def staticJumpFlags : OpcodeFlags := ⟨false, false, false, true, false⟩

/-- Mirrors `OpcodeData`: opcode byte, flags, and the 32-bit auxiliary payload
(immediate offset for PUSHn, pc for PC, target opcode index for static jumps). -/
structure OpcodeData where
  opcode : Nat
  flags : OpcodeFlags
  data : Nat
deriving DecidableEq

/-- The machine state the emitted function mutates: the live stack cells
(bottom first, so the list length is the runtime stack length cell) and the
gas-used cell. The gas limit is constant throughout a call and is passed
separately. -/
structure EvmState where
  stack : List Word
  gas_used : Nat
deriving DecidableEq

/-! Builder 256-bit operations.  Modelled from the spec (section 4.2): the
Builder trait and its backends live outside src; these are the standard
two's-complement machine semantics of the named IR instructions. -/

/-- Modelled from the spec: Builder.iadd, wrapping 256-bit addition. -/
def iadd (a b : Word) : Word := (a + b) % WORD_MOD

/-- Modelled from the spec: Builder.isub, wrapping 256-bit subtraction. -/
def isub (a b : Word) : Word := (a % WORD_MOD + (WORD_MOD - b % WORD_MOD)) % WORD_MOD

/-- Modelled from the spec: Builder.imul, wrapping 256-bit multiplication. -/
def imul (a b : Word) : Word := (a * b) % WORD_MOD

/-- Modelled from the spec: Builder.udiv, unsigned 256-bit division. -/
def udiv (a b : Word) : Word := a / b

/-- Modelled from the spec: Builder.urem, unsigned 256-bit remainder. -/
def urem (a b : Word) : Word := a % b

/-- The signed reading of a 256-bit word (two's complement). -/
def toSigned (a : Word) : Int :=
  if a % WORD_MOD < 2 ^ 255 then (a % WORD_MOD : Int) else (a % WORD_MOD : Int) - (WORD_MOD : Int)

/-- The unsigned 256-bit representative of a signed integer. -/
def ofSigned (i : Int) : Word := (i % (WORD_MOD : Int)).toNat

/-- Modelled from the spec: Builder.sdiv, signed 256-bit division truncating
toward zero. -/
def sdiv (a b : Word) : Word := ofSigned (Int.tdiv (toSigned a) (toSigned b))

/-- Modelled from the spec: Builder.srem, signed 256-bit remainder (sign of
the dividend). -/
def srem (a b : Word) : Word := ofSigned (Int.tmod (toSigned a) (toSigned b))

/-- Modelled from the spec: Builder.bitand. -/
def bitand (a b : Word) : Word := a &&& b

/-- Modelled from the spec: Builder.bitor. -/
def bitor (a b : Word) : Word := a ||| b

/-- Modelled from the spec: Builder.bitxor. -/
def bitxor (a b : Word) : Word := a ^^^ b

/-- Modelled from the spec: Builder.bitnot (256-bit complement). -/
def bitnot (a : Word) : Word := (WORD_MOD - 1) - a % WORD_MOD

/-- Modelled from the spec: Builder.ishl, logical shift left of the first
operand by the second, modulo 2 ^ 256.  The operand convention (first operand
is the shifted value) is the one the in-src test data encodes (test cases
shl1, shr2, sar4 in compiler.rs). -/
def ishl (a b : Word) : Word := (a <<< b) % WORD_MOD

/-- Modelled from the spec: Builder.ushr, logical shift right of the first
operand by the second. -/
def ushr (a b : Word) : Word := (a % WORD_MOD) >>> b

/-- Modelled from the spec: Builder.sshr, arithmetic shift right of the first
operand by the second. -/
def sshr (a b : Word) : Word := ofSigned (Int.ediv (toSigned a) ((2 : Int) ^ b))

/-- Modelled from the spec: Builder.zext applied to an i1 comparison result. -/
def zext (b : Bool) : Word := if b then 1 else 0

/-- Modelled from the spec: Builder.lazy_select builds the two branches into
separate basic blocks and only the branch selected by the condition executes
at runtime (the other argument is never evaluated on that path). -/
def lazySelect {α : Type} (cond : Bool) (then_build else_build : Unit → α) : α :=
  if cond then then_build () else else_build ()

/-- Mirrors `U256::from_be_slice` (external revm_primitives): the big-endian
integer value of a byte slice; a slice shorter than 32 bytes simply yields its
big-endian value (so the available bytes land in the low-order end). -/
def from_be_slice (bytes : List Nat) : Word :=
  bytes.foldl (fun acc b => acc * 256 + b) 0

/-- Modelled from the spec: `Bytecode::get_imm_of`, section 4.1 — the analyzer
records the byte offset of a PUSH immediate in `data`; a PUSH truncated by the
end of the bytecode keeps only the available bytes (the slice is cut at the end
of the raw bytes); an offset past the end yields none (the NOTE in the PUSH arm
says the immediate can be missing for invalid bytecode). -/
def get_imm_of (raw : List Nat) (offset n : Nat) : Option (List Nat) :=
  if offset ≤ raw.length then some ((raw.drop offset).take n) else none

/-- Mirrors the PUSH1..=PUSH32 arm: `imm.map(U256::from_be_slice).unwrap_or_default()`. -/
def push_imm_value (raw : List Nat) (d : OpcodeData) : Word :=
  match get_imm_of raw d.data (d.opcode - op.PUSH1 + 1) with
  | some imm => from_be_slice imm
  | none => 0

/-! Opcode gas table. -/

/-- Modelled from the spec: the per-fork opcode base-gas table
(`op::spec_opcode_gas`, an external crate), CANCUN values for the opcodes this
development exercises; opcodes not used by any claim are given 0.  The values
for PUSH0 (2), ADD (3), PUSH1 (3), JUMP (8), JUMPI (10), the 0 for STOP and
the 0 the table reports for JUMPDEST are also asserted by the in-src test
expectations (RETURN_CASES and CF_CASES in compiler.rs). -/
def op_gas_cancun (ob : Nat) : Nat :=
  if ob = op.STOP then 0
  else if ob = op.ADD ∨ ob = op.SUB then 3
  else if ob = op.MUL ∨ ob = op.DIV ∨ ob = op.SDIV ∨ ob = op.MOD ∨ ob = op.SMOD then 5
  else if (op.LT ≤ ob ∧ ob ≤ op.ISZERO) ∨ (op.AND ≤ ob ∧ ob ≤ op.NOT)
      ∨ ob = op.SHL ∨ ob = op.SHR ∨ ob = op.SAR then 3
  else if ob = op.POP then 2
  else if ob = op.JUMP then 8
  else if ob = op.JUMPI then 10
  else if ob = op.PC then 2
  else if ob = op.JUMPDEST then 0
  else if ob = op.PUSH0 then 2
  else if (op.PUSH1 ≤ ob ∧ ob ≤ op.PUSH32) ∨ (op.DUP1 ≤ ob ∧ ob ≤ op.DUP16)
      ∨ (op.SWAP1 ≤ ob ∧ ob ≤ op.SWAP16) then 3
  else 0

/-- Mirrors translate_opcode lines 413..415: the charged cost is hard-coded to
1 for JUMPDEST (the table reports 0) and is the table base cost otherwise. -/
def charged_gas (ob : Nat) : Nat :=
  if ob = op.JUMPDEST then 1 else op_gas_cancun ob

/-! Gas deduction. -/

/-- Mirrors `FunctionCx::gas_cost`: load the used cell, add the cost, return
OutOfGas when the limit is below the sum (the store is skipped on that path),
otherwise store the sum back. -/
def gas_cost (gas_limit cost : Nat) (s : EvmState) : Except InstructionResult EvmState :=
  if gas_limit < s.gas_used + cost then Except.error InstructionResult.outOfGas
  else Except.ok { s with gas_used := s.gas_used + cost }

/-- Mirrors `FunctionCx::gas_cost_imm`: emits nothing at all (no load, no
check, no store) when gas is disabled or the immediate cost is zero. -/
def gas_cost_imm (disable_gas : Bool) (gas_limit cost : Nat) (s : EvmState) :
    Except InstructionResult EvmState :=
  if disable_gas || cost == 0 then Except.ok s else gas_cost gas_limit cost s

/-- The IR instructions the gas deduction path emits, as a trace. -/
inductive GasEmit where
  | load_gas_used
  | add_cost
  | out_of_gas_check
  | store_gas_used
deriving DecidableEq

/-- Mirrors the emission structure of gas_cost_imm / gas_cost: the early
return in gas_cost_imm means a zero cost emits the empty instruction list. -/
def gas_emits (disable_gas : Bool) (cost : Nat) : List GasEmit :=
  if disable_gas || cost == 0 then []
  else [GasEmit.load_gas_used, GasEmit.add_cost, GasEmit.out_of_gas_check,
        GasEmit.store_gas_used]

/-! Stack helpers. -/

/-- Mirrors `FunctionCx::pushn_unchecked` for one value: store at the current
length and bump the length. -/
def push_unchecked (v : Word) (s : EvmState) : EvmState :=
  { s with stack := s.stack ++ [v] }

/-- Mirrors `FunctionCx::pushn`: guard `len > STACK_CAP - N` with
StackOverflow (the guard fires before any store), then push unchecked. -/
def pushn (values : List Word) (s : EvmState) : Except InstructionResult EvmState :=
  if STACK_CAP - values.length < s.stack.length then
    Except.error InstructionResult.stackOverflow
  else Except.ok { s with stack := s.stack ++ values }

/-- Mirrors `FunctionCx::popn`: guard `len < N` with StackUnderflow (before
any load or length change), then read the top N cells top-first and drop them.
The returned list is ordered top of stack first, as in the source (ret[0] is
loaded at len - 1). -/
def popn (n : Nat) (s : EvmState) : Except InstructionResult (List Word × EvmState) :=
  if s.stack.length < n then Except.error InstructionResult.stackUnderflow
  else
    Except.ok ((s.stack.drop (s.stack.length - n)).reverse,
      { s with stack := s.stack.take (s.stack.length - n) })

/-- Mirrors the `binop!` macro body: popn 2 (a is the top), apply the op,
push unchecked. -/
def pop2_apply (h : Word → Word → Word) (s : EvmState) : Except InstructionResult EvmState :=
  match popn 2 s with
  | Except.error r => Except.error r
  | Except.ok (vals, s1) => Except.ok (push_unchecked (h (vals.getD 0 0) (vals.getD 1 0)) s1)

/-- Mirrors the `unop!` macro body and the ISZERO arm: pop, apply, push
unchecked. -/
def pop1_apply (h : Word → Word) (s : EvmState) : Except InstructionResult EvmState :=
  match popn 1 s with
  | Except.error r => Except.error r
  | Except.ok (vals, s1) => Except.ok (push_unchecked (h (vals.getD 0 0)) s1)

/-- Mirrors the POP arm: pop one value and discard it. -/
def pop1_discard (s : EvmState) : Except InstructionResult EvmState :=
  match popn 1 s with
  | Except.error r => Except.error r
  | Except.ok (_, s1) => Except.ok s1

/-- Mirrors the value computed by the `binop!(@if_not_zero op)` macro: the
condition is icmp_imm Equal b 0 on the second popped operand, the then branch
(marked cold) builds the 256-bit zero constant, the else branch applies the
op; only the selected branch executes. -/
def if_not_zero_op (h : Word → Word → Word) (a b : Word) : Word :=
  lazySelect (b == 0) (fun _ => 0) (fun _ => h a b)

/-- Block-attribute record for a lazy_select lowering. -/
structure SelectShape where
  zero_branch_cold : Bool
  op_branch_cold : Bool
deriving DecidableEq

/-- Mirrors the two closures passed to lazy_select in the @if_not_zero binop
lowering: the zero branch calls set_cold_block on its block before building
iconst_256(0); the op branch does not mark its block cold. -/
def if_not_zero_shape : SelectShape := ⟨true, false⟩

/-- Mirrors `FunctionCx::dup`: guard `len < n` with StackUnderflow, load
stack[len - n], then do a checked push. -/
def dup_sem (n : Nat) (s : EvmState) : Except InstructionResult EvmState :=
  if s.stack.length < n then Except.error InstructionResult.stackUnderflow
  else pushn [s.stack.getD (s.stack.length - n) 0] s

/-- Outcome of executing the emitted code of one opcode block. -/
inductive StepRes where
  | ret (r : InstructionResult) (s : EvmState)
  | goto (target : Nat) (s : EvmState)
  | oob_access
  | not_compiled
deriving DecidableEq

/-- Mirrors `FunctionCx::swap`: the emitted guard is `len < n` (StackUnderflow),
then the code exchanges stack[len - 1] with stack[len - n - 1] through a
temporary slot.  When len = n the guard passes but len - n - 1 is -1 as an
isize, so the emitted loads and stores touch the word before the stack buffer;
we surface that out-of-bounds access as an explicit outcome. -/
def swap_sem (n i : Nat) (s : EvmState) : StepRes :=
  let len := s.stack.length
  if len < n then StepRes.ret InstructionResult.stackUnderflow s
  else if len < n + 1 then StepRes.oob_access
  else
    let a := s.stack.getD (len - (n + 1)) 0
    let b := s.stack.getD (len - 1) 0
    StepRes.goto (i + 1) { s with stack := (s.stack.set (len - (n + 1)) b).set (len - 1) a }

/-- Mirrors build_failure followed by the fall-through branch: an Ok state
continues to the next opcode block, an error returns from the function with the
state as it was when the guard fired. -/
def liftExc (i : Nat) (s : EvmState) : Except InstructionResult EvmState → StepRes
  | Except.ok s2 => StepRes.goto (i + 1) s2
  | Except.error r => StepRes.ret r s

/-- Mirrors the IntCC dispatch of the LT | GT | SLT | SGT | EQ arm. -/
def cmp_cc (ob : Nat) (a b : Word) : Bool :=
  if ob = op.LT then decide (a < b)
  else if ob = op.GT then decide (b < a)
  else if ob = op.SLT then decide (toSigned a < toSigned b)
  else if ob = op.SGT then decide (toSigned b < toSigned a)
  else a == b

/-- Mirrors the JUMP | JUMPI arm at runtime (for code whose translation
succeeded): InvalidJump returns, a static JUMP branches to the target opcode
block, a static JUMPI pops the condition (a checked pop) and branches on it;
a dynamic jump never reaches runtime because translation hits todo!. -/
def jump_sem (d : OpcodeData) (i : Nat) (s : EvmState) : StepRes :=
  if d.flags.invalid_jump then StepRes.ret InstructionResult.invalidJump s
  else if d.flags.static_jump then
    if d.opcode = op.JUMPI then
      match popn 1 s with
      | Except.error r => StepRes.ret r s
      | Except.ok (vals, s1) =>
        if vals.getD 0 0 ≠ 0 then StepRes.goto d.data s1 else StepRes.goto (i + 1) s1
    else StepRes.goto d.data s
  else StepRes.not_compiled

/-- Opcodes whose arm in the translate_opcode match is an empty stub (host,
memory and environment opcodes left unimplemented in this core): they fall
through to the next opcode. -/
def noop_stub_opcodes : List Nat :=
  [0x08, 0x09, 0x0a, 0x0b, 0x1a, 0x20,
   0x30, 0x31, 0x32, 0x33, 0x34, 0x35, 0x36, 0x37, 0x38, 0x39,
   0x3a, 0x3b, 0x3c, 0x3d, 0x3e, 0x3f,
   0x40, 0x41, 0x42, 0x43, 0x44, 0x45, 0x46, 0x47, 0x48, 0x49, 0x4a,
   0x51, 0x52, 0x53, 0x54, 0x55, 0x59, 0x5a, 0x5c, 0x5d,
   0xa0, 0xa1, 0xa2, 0xa3, 0xa4,
   0xf0, 0xf1, 0xf2, 0xf3, 0xf4, 0xf5, 0xfa, 0xfd, 0xff]

/-- The shapes the arms of the big `match data.opcode` of translate_opcode
take: a direct return, a binop (popn 2 then push unchecked), a unop (pop then
push unchecked), a plain pop, the jump arm, a checked push of one value, a
dup, a swap, or an empty stub arm falling through. -/
inductive Arm where
  | ret_result (r : InstructionResult)
  | binop (h : Word → Word → Word)
  | unop (h : Word → Word)
  | pop_one
  | jump_arm
  | push_one (v : Word)
  | dup_arm (n : Nat)
  | swap_arm (n : Nat)
  | fallthrough

/-- Mirrors the dispatch of the big `match data.opcode` of translate_opcode,
arm by arm in source order: which lowering shape each opcode byte selects and
with which operation or operand. -/
def arm_of (raw : List Nat) (d : OpcodeData) : Arm :=
  if d.opcode = op.STOP then Arm.ret_result InstructionResult.stop
  else if d.opcode = op.ADD then Arm.binop iadd
  else if d.opcode = op.MUL then Arm.binop imul
  else if d.opcode = op.SUB then Arm.binop isub
  else if d.opcode = op.DIV then Arm.binop (if_not_zero_op udiv)
  else if d.opcode = op.SDIV then Arm.binop (if_not_zero_op sdiv)
  else if d.opcode = op.MOD then Arm.binop (if_not_zero_op urem)
  else if d.opcode = op.SMOD then Arm.binop (if_not_zero_op srem)
  else if d.opcode = op.LT ∨ d.opcode = op.GT ∨ d.opcode = op.SLT ∨ d.opcode = op.SGT
      ∨ d.opcode = op.EQ then
    Arm.binop (fun a b => zext (cmp_cc d.opcode a b))
  else if d.opcode = op.ISZERO then Arm.unop (fun a => zext (a == 0))
  else if d.opcode = op.AND then Arm.binop bitand
  else if d.opcode = op.OR then Arm.binop bitor
  else if d.opcode = op.XOR then Arm.binop bitxor
  else if d.opcode = op.NOT then Arm.unop bitnot
  else if d.opcode = op.SHL then Arm.binop ishl
  else if d.opcode = op.SHR then Arm.binop ushr
  else if d.opcode = op.SAR then Arm.binop sshr
  else if d.opcode = op.POP then Arm.pop_one
  else if d.opcode = op.JUMP ∨ d.opcode = op.JUMPI then Arm.jump_arm
  else if d.opcode = op.PC then Arm.push_one d.data
  else if d.opcode = op.JUMPDEST then Arm.fallthrough
  else if d.opcode = op.PUSH0 then Arm.push_one 0
  else if op.PUSH1 ≤ d.opcode ∧ d.opcode ≤ op.PUSH32 then
    Arm.push_one (push_imm_value raw d)
  else if op.DUP1 ≤ d.opcode ∧ d.opcode ≤ op.DUP16 then Arm.dup_arm (d.opcode - op.DUP1 + 1)
  else if op.SWAP1 ≤ d.opcode ∧ d.opcode ≤ op.SWAP16 then Arm.swap_arm (d.opcode - op.SWAP1 + 1)
  else if d.opcode = op.INVALID then Arm.ret_result InstructionResult.invalidFEOpcode
  else if noop_stub_opcodes.contains d.opcode then Arm.fallthrough
  else Arm.ret_result InstructionResult.opcodeNotFound

/-- Mirrors the big `match data.opcode` of translate_opcode (the lowering of
one opcode after the DISABLED, gas and SKIP_LOGIC steps), as the runtime
semantics of the code the selected arm emits: JUMPDEST emits a nop and the
stub arms emit nothing, so both fall through. -/
def lower (raw : List Nat) (d : OpcodeData) (i : Nat) (s : EvmState) : StepRes :=
  match arm_of raw d with
  | Arm.ret_result r => StepRes.ret r s
  | Arm.binop h => liftExc i s (pop2_apply h s)
  | Arm.unop h => liftExc i s (pop1_apply h s)
  | Arm.pop_one => liftExc i s (pop1_discard s)
  | Arm.jump_arm => jump_sem d i s
  | Arm.push_one v => liftExc i s (pushn [v] s)
  | Arm.dup_arm n => liftExc i s (dup_sem n s)
  | Arm.swap_arm n => swap_sem n i s
  | Arm.fallthrough => StepRes.goto (i + 1) s

/-- Mirrors `FunctionCx::translate_opcode` as the runtime semantics of the
block it emits, in source order: the DISABLED early return, then the gas
deduction (skipped when gas is disabled or SKIP_GAS is set), then the
SKIP_LOGIC fall-through, then the per-opcode lowering. -/
def exec_opcode (dg : Bool) (gl : Nat) (raw : List Nat) (d : OpcodeData) (i : Nat)
    (s : EvmState) : StepRes :=
  if d.flags.disabled then StepRes.ret InstructionResult.notActivated s
  else
    match (if !dg && !d.flags.skip_gas then gas_cost_imm dg gl (charged_gas d.opcode) s
           else Except.ok s) with
    | Except.error r => StepRes.ret r s
    | Except.ok s1 =>
      if d.flags.skip_logic then StepRes.goto (i + 1) s1
      else lower raw d i s1

/-- Outcome of a bounded run of the emitted function. -/
inductive RunRes where
  | ret (r : InstructionResult) (s : EvmState)
  | noTerm (s : EvmState)
  | oob_access
  | not_compiled
  | outOfFuel
deriving DecidableEq

/-- Executes the emitted function: start in the block of opcode i and follow
branches; a branch to a block index past the opcode list models falling into a
block that got no terminator (the source emits none when no successor block
exists). -/
def exec (dg : Bool) (gl : Nat) (raw : List Nat) (ops : List OpcodeData) :
    Nat → Nat → EvmState → RunRes
  | 0, _, _ => RunRes.outOfFuel
  | fuel + 1, i, s =>
    match ops.get? i with
    | none => RunRes.noTerm s
    | some d =>
      match exec_opcode dg gl raw d i s with
      | StepRes.ret r s2 => RunRes.ret r s2
      | StepRes.goto j s2 => exec dg gl raw ops fuel j s2
      | StepRes.oob_access => RunRes.oob_access
      | StepRes.not_compiled => RunRes.not_compiled

/-! Translation-time model: the places where translation itself can panic. -/

/-- Mirrors the panic sources inside translate_opcode: only the JUMP/JUMPI arm
indexes op_blocks without a bounds check — op_blocks[data] for the target and,
for JUMPI only, op_blocks[opcode + 1] for the fall-through — and the dynamic
jump case hits an unimplemented marker; the arm is only reached when the
opcode is not DISABLED and not SKIP_LOGIC.  No other arm indexes op_blocks
directly (the shared fall-through uses the checked op_blocks.get). -/
def translate_opcode_panics (numOps i : Nat) (d : OpcodeData) : Bool :=
  if d.flags.disabled then false
  else if d.flags.skip_logic then false
  else if d.opcode = op.JUMP ∨ d.opcode = op.JUMPI then
    if d.flags.invalid_jump then false
    else if d.flags.static_jump then
      decide (numOps ≤ d.data) || (decide (d.opcode = op.JUMPI) && decide (numOps ≤ i + 1))
    else true
  else false

/-- Mirrors the `for i in 0..len` loop of FunctionCx::translate: translation
panics as soon as one opcode's translation panics. -/
def translate_loop (numOps i : Nat) : List OpcodeData → Bool
  | [] => false
  | d :: rest => translate_opcode_panics numOps i d || translate_loop numOps (i + 1) rest

/-- Mirrors `FunctionCx::translate` at the panic level: none models an abort
by panic (the assert on empty op_blocks, or a panic inside translate_opcode);
the Rust function returns Result but every path of it yields Ok, so a
successful translation is some (). -/
def translate (ops : List OpcodeData) : Option Unit :=
  if ops.isEmpty then none
  else if translate_loop ops.length 0 ops then none
  else some ()

/-- Mirrors `branch_to_next_opcode`: a checked `op_blocks.get(opcode + 1)`;
the emitted fall-through branch list is empty when no successor block exists. -/
def branch_to_next_opcode (numOps i : Nat) : List Nat :=
  if i + 1 < numOps then [i + 1] else []

/-! Prologue debug assertions. -/

/-- Mirrors `pointer_panic_with_bool`: the condition under which the emitted
guard calls the external panic hook — the pointer is null while the
configuration requires it set, or non-null while the configuration requires
it null. -/
def pointer_panic_with_bool (must_be_set ptr_is_null : Bool) : Bool :=
  if must_be_set then ptr_is_null else !ptr_is_null

/-- Mirrors the gas-pointer debug assertion in FunctionCx::translate:
must_be_set is `!gas_disabled || store_gas_used || static_gas_limit.is_none()`. -/
def gas_ptr_panic (gas_disabled store_used : Bool) (static_gas_limit : Option Nat)
    (ptr_is_null : Bool) : Bool :=
  pointer_panic_with_bool (!gas_disabled || store_used || static_gas_limit.isNone) ptr_is_null

/-! Statements of claims as the spec words them, for comparison with the
source lowerings (refinement checks). -/

/-- Claim C2 as stated: for a chargeable opcode of cost g the emitted code
computes used2 = used + g, returns OutOfGas exactly when gas_limit < used2 and
otherwise stores used2 back — with no exception for g = 0. -/
def spec_gas_deduction (gas_limit g : Nat) (s : EvmState) : Except InstructionResult EvmState :=
  if gas_limit < s.gas_used + g then Except.error InstructionResult.outOfGas
  else Except.ok { s with gas_used := s.gas_used + g }

/-- Claim C5 as stated: the shift count is the stack top and the shifted value
sits below it, so SHL pushes value_below shifted left by shift_top. -/
def spec_shl_push (shift_top value_below : Word) : Word := ishl value_below shift_top

/-- Claim C6 as stated: a truncated PUSH immediate is left-aligned in the
word, the missing low-order bytes zero-padded on the right. -/
def spec_push_value (raw : List Nat) (offset n : Nat) : Word :=
  let avail := (raw.drop offset).take n
  from_be_slice avail * 256 ^ (n - avail.length)

/-- Stack-length bound carried by a step outcome. -/
def StepRes.lenLe : StepRes → Prop
  | StepRes.ret _ s => s.stack.length ≤ STACK_CAP
  | StepRes.goto _ s => s.stack.length ≤ STACK_CAP
  | StepRes.oob_access => True
  | StepRes.not_compiled => True

/-- Stack-length bound carried by a run outcome. -/
def RunRes.lenLe : RunRes → Prop
  | RunRes.ret _ s => s.stack.length ≤ STACK_CAP
  | RunRes.noTerm s => s.stack.length ≤ STACK_CAP
  | RunRes.oob_access => True
  | RunRes.not_compiled => True
  | RunRes.outOfFuel => True

/-! Helper lemmas about the stack and gas helpers. -/

theorem pushn_ok_length {values : List Word} {s s2 : EvmState}
    (h : pushn values s = Except.ok s2) :
    s2.stack.length = s.stack.length + values.length ∧
      s.stack.length ≤ STACK_CAP - values.length := by
  unfold pushn at h
  split at h
  · exact absurd h (by simp)
  · rename_i hc
    injection h with h
    subst h
    refine ⟨by simp, by omega⟩

theorem pushn_error_iff (values : List Word) (s : EvmState) :
    pushn values s = Except.error InstructionResult.stackOverflow ↔
      STACK_CAP - values.length < s.stack.length := by
  unfold pushn
  split <;> rename_i hc <;> simp [hc]

theorem popn_error_iff (n : Nat) (s : EvmState) :
    popn n s = Except.error InstructionResult.stackUnderflow ↔ s.stack.length < n := by
  unfold popn
  split <;> rename_i hc <;> simp [hc]

theorem popn_ok_length {n : Nat} {s : EvmState} {vals : List Word} {s2 : EvmState}
    (h : popn n s = Except.ok (vals, s2)) :
    n ≤ s.stack.length ∧ s2.stack.length + n = s.stack.length := by
  unfold popn at h
  split at h
  · exact absurd h (by simp)
  · rename_i hc
    injection h with h
    have h2 := congrArg Prod.snd h
    simp at h2
    subst h2
    simp [List.length_take]
    omega

theorem gas_cost_imm_ok_stack {dg : Bool} {gl c : Nat} {s s1 : EvmState}
    (h : gas_cost_imm dg gl c s = Except.ok s1) : s1.stack = s.stack := by
  unfold gas_cost_imm gas_cost at h
  split at h
  · injection h with h
    subst h
    rfl
  · split at h
    · exact absurd h (by simp)
    · injection h with h
      subst h
      rfl

theorem pop2_apply_ok_length {h : Word → Word → Word} {s s2 : EvmState}
    (he : pop2_apply h s = Except.ok s2) :
    s2.stack.length + 1 = s.stack.length := by
  unfold pop2_apply at he
  cases hp : popn 2 s with
  | error r => rw [hp] at he; exact absurd he (by simp)
  | ok p =>
    obtain ⟨vals, s1⟩ := p
    rw [hp] at he
    injection he with he
    have := popn_ok_length hp
    subst he
    simp [push_unchecked]
    omega

theorem pop1_apply_ok_length {h : Word → Word} {s s2 : EvmState}
    (he : pop1_apply h s = Except.ok s2) :
    s2.stack.length = s.stack.length := by
  unfold pop1_apply at he
  cases hp : popn 1 s with
  | error r => rw [hp] at he; exact absurd he (by simp)
  | ok p =>
    obtain ⟨vals, s1⟩ := p
    rw [hp] at he
    injection he with he
    have := popn_ok_length hp
    subst he
    simp [push_unchecked]
    omega

theorem pop1_discard_ok_length {s s2 : EvmState}
    (he : pop1_discard s = Except.ok s2) :
    s2.stack.length + 1 = s.stack.length := by
  unfold pop1_discard at he
  cases hp : popn 1 s with
  | error r => rw [hp] at he; exact absurd he (by simp)
  | ok p =>
    obtain ⟨vals, s1⟩ := p
    rw [hp] at he
    injection he with he
    have := popn_ok_length hp
    subst he
    omega

theorem dup_sem_ok_le {n : Nat} {s s2 : EvmState}
    (hs : s.stack.length ≤ STACK_CAP) (he : dup_sem n s = Except.ok s2) :
    s2.stack.length ≤ STACK_CAP := by
  unfold dup_sem at he
  split at he
  · exact absurd he (by simp)
  · have := pushn_ok_length he
    simp only [List.length_cons, List.length_nil] at this
    simp only [STACK_CAP] at *
    omega

/-! Length-preservation of each lowering form. -/

theorem liftExc_lenLe {i : Nat} {s : EvmState} {e : Except InstructionResult EvmState}
    (hs : s.stack.length ≤ STACK_CAP)
    (he : ∀ s2, e = Except.ok s2 → s2.stack.length ≤ STACK_CAP) :
    (liftExc i s e).lenLe := by
  cases e with
  | ok s2 => exact he s2 rfl
  | error r => exact hs

theorem liftExc_pop2_lenLe {i : Nat} {s : EvmState} {h : Word → Word → Word}
    (hs : s.stack.length ≤ STACK_CAP) : (liftExc i s (pop2_apply h s)).lenLe :=
  liftExc_lenLe hs (fun _s2 he => by have := pop2_apply_ok_length he; omega)

theorem liftExc_pop1_lenLe {i : Nat} {s : EvmState} {h : Word → Word}
    (hs : s.stack.length ≤ STACK_CAP) : (liftExc i s (pop1_apply h s)).lenLe :=
  liftExc_lenLe hs (fun _s2 he => by have := pop1_apply_ok_length he; omega)

theorem liftExc_discard_lenLe {i : Nat} {s : EvmState}
    (hs : s.stack.length ≤ STACK_CAP) : (liftExc i s (pop1_discard s)).lenLe :=
  liftExc_lenLe hs (fun _s2 he => by have := pop1_discard_ok_length he; omega)

theorem liftExc_push1_lenLe {i : Nat} {s : EvmState} {v : Word}
    (hs : s.stack.length ≤ STACK_CAP) : (liftExc i s (pushn [v] s)).lenLe :=
  liftExc_lenLe hs (fun _s2 he => by
    have := pushn_ok_length he
    simp only [List.length_cons, List.length_nil] at this
    simp only [STACK_CAP] at *
    omega)

theorem liftExc_dup_lenLe {i n : Nat} {s : EvmState}
    (hs : s.stack.length ≤ STACK_CAP) : (liftExc i s (dup_sem n s)).lenLe :=
  liftExc_lenLe hs (fun _s2 he => dup_sem_ok_le hs he)

theorem swap_sem_lenLe {n i : Nat} {s : EvmState}
    (hs : s.stack.length ≤ STACK_CAP) : (swap_sem n i s).lenLe := by
  simp only [swap_sem]
  split
  · exact hs
  · split
    · trivial
    · show ((s.stack.set _ _).set _ _).length ≤ STACK_CAP
      simpa using hs

theorem jump_sem_lenLe {d : OpcodeData} {i : Nat} {s : EvmState}
    (hs : s.stack.length ≤ STACK_CAP) : (jump_sem d i s).lenLe := by
  unfold jump_sem
  split
  · exact hs
  · split
    · split
      · cases hp : popn 1 s with
        | error r => exact hs
        | ok p =>
          obtain ⟨vals, s1⟩ := p
          have hlen := popn_ok_length hp
          obtain ⟨h1, h2⟩ := hlen
          show (if vals.getD 0 0 ≠ 0 then StepRes.goto d.data s1
            else StepRes.goto (i + 1) s1).lenLe
          split
          · show s1.stack.length ≤ STACK_CAP
            omega
          · show s1.stack.length ≤ STACK_CAP
            omega
      · exact hs
    · trivial

theorem lower_lenLe (raw : List Nat) (d : OpcodeData) (i : Nat) (s : EvmState)
    (hs : s.stack.length ≤ STACK_CAP) : (lower raw d i s).lenLe := by
  unfold lower
  cases arm_of raw d <;>
    first
      | exact hs
      | exact liftExc_pop2_lenLe hs
      | exact liftExc_pop1_lenLe hs
      | exact liftExc_discard_lenLe hs
      | exact liftExc_push1_lenLe hs
      | exact liftExc_dup_lenLe hs
      | exact swap_sem_lenLe hs
      | exact jump_sem_lenLe hs

theorem exec_opcode_lenLe (dg : Bool) (gl : Nat) (raw : List Nat) (d : OpcodeData)
    (i : Nat) (s : EvmState) (hs : s.stack.length ≤ STACK_CAP) :
    (exec_opcode dg gl raw d i s).lenLe := by
  unfold exec_opcode
  split
  · exact hs
  · cases hg : (if !dg && !d.flags.skip_gas then gas_cost_imm dg gl (charged_gas d.opcode) s
        else Except.ok s) with
    | error r => exact hs
    | ok s1 =>
      have hstack : s1.stack = s.stack := by
        split at hg
        · exact gas_cost_imm_ok_stack hg
        · injection hg with hg
          subst hg
          rfl
      have hs1 : s1.stack.length ≤ STACK_CAP := by rw [hstack]; exact hs
      show (if d.flags.skip_logic = true then StepRes.goto (i + 1) s1
        else lower raw d i s1).lenLe
      split
      · exact hs1
      · exact lower_lenLe raw d i s1 hs1

theorem exec_lenLe (dg : Bool) (gl : Nat) (raw : List Nat) (ops : List OpcodeData) :
    ∀ (fuel i : Nat) (s : EvmState), s.stack.length ≤ STACK_CAP →
      (exec dg gl raw ops fuel i s).lenLe := by
  intro fuel
  induction fuel with
  | zero => intro i s _hs; trivial
  | succ n ih =>
    intro i s hs
    show (exec dg gl raw ops (n + 1) i s).lenLe
    rw [exec]
    cases h1 : ops.get? i with
    | none => exact hs
    | some d =>
      have hstep := exec_opcode_lenLe dg gl raw d i s hs
      show (match exec_opcode dg gl raw d i s with
        | StepRes.ret r s2 => RunRes.ret r s2
        | StepRes.goto j s2 => exec dg gl raw ops n j s2
        | StepRes.oob_access => RunRes.oob_access
        | StepRes.not_compiled => RunRes.not_compiled).lenLe
      cases h2 : exec_opcode dg gl raw d i s with
      | ret r s2 =>
        rw [h2] at hstep
        exact hstep
      | goto j s2 =>
        rw [h2] at hstep
        exact ih j s2 hstep
      | oob_access => trivial
      | not_compiled => trivial

/-! Evaluation of popn and the binop arms on a stack given as rest ++ [b, a]
(a is the top of the stack). -/

theorem popn_two_append (rest : List Word) (a b : Word) (g : Nat) :
    popn 2 ⟨rest ++ [b, a], g⟩ = Except.ok ([a, b], ⟨rest, g⟩) := by
  have hlen : (rest ++ [b, a]).length = rest.length + 2 := by simp
  unfold popn
  rw [if_neg (by simp)]
  have hd : (rest ++ [b, a]).length - 2 = rest.length := by omega
  simp only [hd]
  rw [List.drop_left, List.take_left]
  rfl

theorem pop2_apply_append (h : Word → Word → Word) (rest : List Word) (a b : Word) (g : Nat) :
    pop2_apply h ⟨rest ++ [b, a], g⟩ = Except.ok ⟨rest ++ [h a b], g⟩ := by
  unfold pop2_apply
  rw [popn_two_append]
  rfl

theorem translate_loop_append (numOps : Nat) (l1 l2 : List OpcodeData) :
    ∀ i, translate_loop numOps i (l1 ++ l2) =
      (translate_loop numOps i l1 || translate_loop numOps (i + l1.length) l2) := by
  induction l1 with
  | nil => intro i; simp [translate_loop]
  | cons d rest ih =>
    intro i
    show (translate_opcode_panics numOps i d || translate_loop numOps (i + 1) (rest ++ l2)) =
      ((translate_opcode_panics numOps i d || translate_loop numOps (i + 1) rest) ||
        translate_loop numOps (i + (d :: rest).length) l2)
    rw [ih (i + 1), Bool.or_assoc]
    have harith : i + 1 + rest.length = i + (d :: rest).length := by simp; omega
    rw [harith]

/-! The claims. -/

/-- C1: every checked push of N values first emits a guard returning
StackOverflow exactly when the stack length exceeds 1024 - N, and every
checked pop of N values first emits a guard returning StackUnderflow exactly
when the stack length is below N; consequently a call of the compiled function
starting from a stack length of at most 1024 can never end (by a return or by
falling past the last opcode) with a stack length above 1024, and a pop that
goes through removes exactly its N values, never driving the length below
zero. -/
theorem C1_checked_stack_guards :
    (∀ (values : List Word) (s : EvmState),
        pushn values s = Except.error InstructionResult.stackOverflow ↔
          STACK_CAP - values.length < s.stack.length) ∧
    (∀ (n : Nat) (s : EvmState),
        popn n s = Except.error InstructionResult.stackUnderflow ↔ s.stack.length < n) ∧
    (∀ (n : Nat) (s : EvmState) (vals : List Word) (s2 : EvmState),
        popn n s = Except.ok (vals, s2) →
          n ≤ s.stack.length ∧ s2.stack.length + n = s.stack.length) ∧
    (∀ (dg : Bool) (gl : Nat) (raw : List Nat) (ops : List OpcodeData)
        (fuel i : Nat) (s : EvmState),
        s.stack.length ≤ STACK_CAP →
          (∀ r s2, exec dg gl raw ops fuel i s = RunRes.ret r s2 →
              s2.stack.length ≤ STACK_CAP) ∧
          (∀ s2, exec dg gl raw ops fuel i s = RunRes.noTerm s2 →
              s2.stack.length ≤ STACK_CAP)) := by
  refine ⟨pushn_error_iff, popn_error_iff, ?_, ?_⟩
  · intro n s vals s2 h
    exact popn_ok_length h
  · intro dg gl raw ops fuel i s hs
    have h := exec_lenLe dg gl raw ops fuel i s hs
    constructor
    · intro r s2 he
      rw [he] at h
      exact h
    · intro s2 he
      rw [he] at h
      exact h

/-- C1 witness: the run-level bound applied to the concrete run of the single
opcode PUSH0 from the empty stack, which ends by falling through with stack
[0]. -/
theorem C1_checked_stack_guards_witness :
    (⟨[0], 2⟩ : EvmState).stack.length ≤ STACK_CAP :=
  (C1_checked_stack_guards.2.2.2 false 10000 [] [⟨op.PUSH0, noFlags, 0⟩] 2 0 ⟨[], 0⟩
      (by decide)).2 ⟨[0], 2⟩ (by decide)

/-- C2 counterexample: STOP is chargeable (gas enabled, SKIP_GAS clear) and
its charged table cost is 0; with the gas-used cell pre-set to 1 and the gas
limit 0, the claim as stated demands OutOfGas (gas_limit < used + 0), but the
emitted code contains no gas sequence at all, leaves the cell untouched and
the block returns Stop. -/
theorem C2_zero_cost_counterexample :
    charged_gas op.STOP = 0 ∧
    gas_cost_imm false 0 (charged_gas op.STOP) ⟨[], 1⟩ = Except.ok ⟨[], 1⟩ ∧
    spec_gas_deduction 0 (charged_gas op.STOP) ⟨[], 1⟩ =
      Except.error InstructionResult.outOfGas ∧
    exec false 0 [] [⟨op.STOP, noFlags, 0⟩] 1 0 ⟨[], 1⟩ =
      RunRes.ret InstructionResult.stop ⟨[], 1⟩ := by
  refine ⟨rfl, rfl, rfl, by decide⟩

/-- C2 amended: for every chargeable opcode whose charged cost g is positive,
the emitted gas code computes used2 = used + g, returns OutOfGas exactly when
gas_limit < used2 and otherwise stores used2 back; when g = 0 no gas code is
emitted at all (no load, no check, no store, and never OutOfGas); the charged
cost is 1 for JUMPDEST and the opcode table base cost for every other
opcode. -/
theorem C2_gas_deduction_amended (g gl : Nat) (s : EvmState) (hg : 0 < g) :
    gas_cost_imm false gl g s = spec_gas_deduction gl g s ∧
    charged_gas op.JUMPDEST = 1 ∧
    (∀ ob, ob ≠ op.JUMPDEST → charged_gas ob = op_gas_cancun ob) := by
  refine ⟨?_, rfl, ?_⟩
  · unfold gas_cost_imm gas_cost spec_gas_deduction
    rw [if_neg (by simp; omega)]
  · intro ob hne
    unfold charged_gas
    rw [if_neg hne]

/-- C2 witness: the amended deduction equation instantiated at cost 3, limit
10 and a fresh state. -/
theorem C2_gas_deduction_amended_witness :
    gas_cost_imm false 10 3 ⟨[], 0⟩ = spec_gas_deduction 10 3 ⟨[], 0⟩ :=
  (C2_gas_deduction_amended 3 10 ⟨[], 0⟩ (by decide)).1

/-- C3: the DIV, SDIV, MOD and SMOD lowerings pop two operands [a, b] with a
the stack top and push lazy_select(b == 0, 0, op(a, b)): when the divisor b is
zero the pushed result is the 256-bit zero constant and the division is not
executed (the result does not depend on the op at all), the zero branch being
a cold block and the op branch non-cold; when b is nonzero the result is the
corresponding unsigned or signed division or remainder; so DIV by 0 pushes 0
and does not trap (shown end to end on PUSH0; PUSH1 32; DIV; STOP). -/
theorem C3_div_lazy_select :
    (∀ (f : OpcodeFlags) (x i g : Nat) (rest : List Word) (a b : Word),
        lower [] ⟨op.DIV, f, x⟩ i ⟨rest ++ [b, a], g⟩ =
          StepRes.goto (i + 1)
            ⟨rest ++ [lazySelect (b == 0) (fun _ => 0) (fun _ => udiv a b)], g⟩ ∧
        lower [] ⟨op.SDIV, f, x⟩ i ⟨rest ++ [b, a], g⟩ =
          StepRes.goto (i + 1)
            ⟨rest ++ [lazySelect (b == 0) (fun _ => 0) (fun _ => sdiv a b)], g⟩ ∧
        lower [] ⟨op.MOD, f, x⟩ i ⟨rest ++ [b, a], g⟩ =
          StepRes.goto (i + 1)
            ⟨rest ++ [lazySelect (b == 0) (fun _ => 0) (fun _ => urem a b)], g⟩ ∧
        lower [] ⟨op.SMOD, f, x⟩ i ⟨rest ++ [b, a], g⟩ =
          StepRes.goto (i + 1)
            ⟨rest ++ [lazySelect (b == 0) (fun _ => 0) (fun _ => srem a b)], g⟩) ∧
    (∀ (h : Word → Word → Word) (a b : Word),
        lazySelect (b == 0) (fun _ => 0) (fun _ => h a b) =
          if b = 0 then 0 else h a b) ∧
    (∀ (h1 h2 : Word → Word → Word) (a : Word),
        lazySelect ((0 : Word) == 0) (fun _ => 0) (fun _ => h1 a 0) =
          lazySelect ((0 : Word) == 0) (fun _ => 0) (fun _ => h2 a 0)) ∧
    if_not_zero_shape.zero_branch_cold = true ∧
    if_not_zero_shape.op_branch_cold = false ∧
    exec false 10000 [0x5f, 0x60, 0x20, 0x04, 0x00]
      [⟨op.PUSH0, noFlags, 0⟩, ⟨op.PUSH1, noFlags, 2⟩, ⟨op.DIV, noFlags, 0⟩,
       ⟨op.STOP, noFlags, 0⟩] 5 0 ⟨[], 0⟩ =
      RunRes.ret InstructionResult.stop ⟨[0], 10⟩ := by
  refine ⟨?_, ?_, ?_, rfl, rfl, by decide⟩
  · intro f x i g rest a b
    refine ⟨?_, ?_, ?_, ?_⟩
    · rw [show lower [] ⟨op.DIV, f, x⟩ i ⟨rest ++ [b, a], g⟩ =
          liftExc i ⟨rest ++ [b, a], g⟩
            (pop2_apply (if_not_zero_op udiv) ⟨rest ++ [b, a], g⟩) from rfl,
        pop2_apply_append]
      rfl
    · rw [show lower [] ⟨op.SDIV, f, x⟩ i ⟨rest ++ [b, a], g⟩ =
          liftExc i ⟨rest ++ [b, a], g⟩
            (pop2_apply (if_not_zero_op sdiv) ⟨rest ++ [b, a], g⟩) from rfl,
        pop2_apply_append]
      rfl
    · rw [show lower [] ⟨op.MOD, f, x⟩ i ⟨rest ++ [b, a], g⟩ =
          liftExc i ⟨rest ++ [b, a], g⟩
            (pop2_apply (if_not_zero_op urem) ⟨rest ++ [b, a], g⟩) from rfl,
        pop2_apply_append]
      rfl
    · rw [show lower [] ⟨op.SMOD, f, x⟩ i ⟨rest ++ [b, a], g⟩ =
          liftExc i ⟨rest ++ [b, a], g⟩
            (pop2_apply (if_not_zero_op srem) ⟨rest ++ [b, a], g⟩) from rfl,
        pop2_apply_append]
      rfl
  · intro h a b
    unfold lazySelect
    by_cases hb : b = 0
    · simp [hb]
    · simp [hb]
  · intro h1 h2 a
    rfl

/-- C4: the claim says SWAPn requires stack length at least n + 1 and returns
StackUnderflow below that.  The emitted guard is in fact len < n, so at
len = n the guard passes and the emitted code accesses stack[len - n - 1],
which is one word before the stack buffer: an out-of-bounds access instead of
the claimed StackUnderflow.  The run of PUSH0; SWAP1 exhibits it. -/
theorem C4_swap_guard_bug :
    (∀ (n i : Nat) (s : EvmState),
        swap_sem n i s = StepRes.ret InstructionResult.stackUnderflow s ↔
          s.stack.length < n) ∧
    swap_sem 1 0 ⟨[7], 0⟩ = StepRes.oob_access ∧
    exec false 10000 [] [⟨op.PUSH0, noFlags, 0⟩, ⟨op.SWAP1, noFlags, 0⟩] 3 0 ⟨[], 0⟩ =
      RunRes.oob_access ∧
    (1 : Nat) < 1 + 1 := by
  refine ⟨?_, by decide, by decide, by decide⟩
  intro n i s
  simp only [swap_sem]
  split
  · rename_i hlt
    simp [hlt]
  · rename_i hge
    split
    · simpa using hge
    · simpa using hge

/-- C5 counterexample: with stack [0, 1] (top 1, below 0) the SHL lowering
pushes 1 — the popped top operand shifted by the operand below it — while the
claim as stated (shift is the top, value is below) demands 0 shifted left by
1, which is 0. -/
theorem C5_shift_operand_counterexample :
    lower [] ⟨op.SHL, noFlags, 0⟩ 0 ⟨[0, 1], 0⟩ = StepRes.goto 1 ⟨[1], 0⟩ ∧
    spec_shl_push 1 0 = 0 ∧ (1 : Word) ≠ 0 := by
  refine ⟨by decide, by decide, by decide⟩

/-- C5 amended: the SHL, SHR and SAR lowerings pop two operands [a, b] with a
the stack top and push a shifted by b — logical left for SHL, logical right
for SHR, arithmetic right for SAR, modulo 2 ^ 256.  This is the operand order
the in-src test data encodes (and the reverse of the one the claim states:
here the shifted value is the top and the shift count is below it). -/
theorem C5_shift_lowering_amended :
    (∀ (f : OpcodeFlags) (x i g : Nat) (rest : List Word) (a b : Word),
        lower [] ⟨op.SHL, f, x⟩ i ⟨rest ++ [b, a], g⟩ =
          StepRes.goto (i + 1) ⟨rest ++ [ishl a b], g⟩ ∧
        lower [] ⟨op.SHR, f, x⟩ i ⟨rest ++ [b, a], g⟩ =
          StepRes.goto (i + 1) ⟨rest ++ [ushr a b], g⟩ ∧
        lower [] ⟨op.SAR, f, x⟩ i ⟨rest ++ [b, a], g⟩ =
          StepRes.goto (i + 1) ⟨rest ++ [sshr a b], g⟩) ∧
    (∀ a b : Word, ishl a b = a * 2 ^ b % WORD_MOD) ∧
    (∀ a b : Word, ushr a b = a % WORD_MOD / 2 ^ b) := by
  refine ⟨?_, ?_, ?_⟩
  · intro f x i g rest a b
    refine ⟨?_, ?_, ?_⟩
    · rw [show lower [] ⟨op.SHL, f, x⟩ i ⟨rest ++ [b, a], g⟩ =
          liftExc i ⟨rest ++ [b, a], g⟩ (pop2_apply ishl ⟨rest ++ [b, a], g⟩) from rfl,
        pop2_apply_append]
      rfl
    · rw [show lower [] ⟨op.SHR, f, x⟩ i ⟨rest ++ [b, a], g⟩ =
          liftExc i ⟨rest ++ [b, a], g⟩ (pop2_apply ushr ⟨rest ++ [b, a], g⟩) from rfl,
        pop2_apply_append]
      rfl
    · rw [show lower [] ⟨op.SAR, f, x⟩ i ⟨rest ++ [b, a], g⟩ =
          liftExc i ⟨rest ++ [b, a], g⟩ (pop2_apply sshr ⟨rest ++ [b, a], g⟩) from rfl,
        pop2_apply_append]
      rfl
  · intro a b
    unfold ishl
    rw [Nat.shiftLeft_eq]
  · intro a b
    unfold ushr
    rw [Nat.shiftRight_eq_div_pow]

/-- C6: the claim says a PUSH immediate truncated by the end of the bytecode
is left-aligned with the missing low-order bytes zero-padded on the right.
The code instead takes the big-endian value of the available slice as is
(right-aligned): for the raw bytecode [0x61, 0x01] (PUSH2 with a single
immediate byte 0x01) the compiled code pushes 1, while the claim (and EVM
semantics, reading past the end of the code as zeros) demands 0x0100 = 256. -/
theorem C6_truncated_push_bug :
    from_be_slice [1] = 1 ∧
    spec_push_value [0x61, 1] 1 2 = 256 ∧
    exec false 10000 [0x61, 1] [⟨0x61, noFlags, 1⟩] 2 0 ⟨[], 0⟩ =
      RunRes.noTerm ⟨[1], 3⟩ ∧
    (1 : Word) ≠ 256 := by
  refine ⟨rfl, by decide, by decide, by decide⟩

/-- C7: compiling [PUSH0, ADD] (Cancun, gas limit 10000) and running it from
the empty stack returns StackUnderflow with final stack exactly [0] and gas
used 5: PUSH0 charges 2 and pushes 0, ADD charges 3 (stored before the
underflow guard fires) and its pop guard returns StackUnderflow with the
stack unmodified. -/
theorem C7_push0_add_underflow :
    exec false 10000 [0x5f, 0x01] [⟨op.PUSH0, noFlags, 0⟩, ⟨op.ADD, noFlags, 0⟩] 3 0 ⟨[], 0⟩ =
      RunRes.ret InstructionResult.stackUnderflow ⟨[0], 5⟩ := by
  decide

/-- C8: with debug assertions on, the emitted prologue panics on the gas
pointer exactly when its nullness contradicts the configuration: the pointer
must be null exactly when gas is disabled, store_gas_used is false and a
static gas limit is set, and must be non-null in every other configuration. -/
theorem C8_gas_ptr_null_check :
    ∀ (gd su ptr_null : Bool) (sgl : Option Nat),
      gas_ptr_panic gd su sgl ptr_null = true ↔
        ¬(ptr_null = (gd && !su && sgl.isSome)) := by
  intro gd su ptr_null sgl
  cases sgl with
  | none =>
    revert gd su ptr_null
    decide
  | some v =>
    simp only [gas_ptr_panic, pointer_panic_with_bool, Option.isNone_some, Option.isSome_some]
    cases gd <;> cases su <;> cases ptr_null <;> simp

/-- C9: an opcode whose charged cost is 0 (for example STOP) emits no gas
code at all — the emitted instruction trace of the gas path is empty and the
state passes through untouched — so it can never return OutOfGas, even when
the gas-used cell already exceeds the gas limit at entry (STOP with used 5
and limit 3 returns Stop). -/
theorem C9_zero_cost_no_gas_code :
    (∀ dg : Bool, gas_emits dg 0 = []) ∧
    (∀ (gl : Nat) (s : EvmState), gas_cost_imm false gl 0 s = Except.ok s) ∧
    charged_gas op.STOP = 0 ∧
    (∀ fuel : Nat,
        exec false 3 [] [⟨op.STOP, noFlags, 0⟩] (fuel + 1) 0 ⟨[], 5⟩ =
          RunRes.ret InstructionResult.stop ⟨[], 5⟩) := by
  refine ⟨?_, ?_, rfl, ?_⟩
  · intro dg
    cases dg <;> rfl
  · intro gl s
    rfl
  · intro fuel
    rfl

/-- C10: when the final opcode of the sequence is a JUMPI carrying
STATIC_JUMP and not INVALID_JUMP (and not disabled or logic-skipped),
translation indexes op_blocks at index i + 1, which is out of bounds, and
panics — compile aborts by panic, not by an error return; the shared
fall-through of every opcode uses the bounds-checked op_blocks.get and emits
no terminator when there is no successor block, and no arm other than
JUMP/JUMPI can panic in translate_opcode. -/
theorem C10_last_jumpi_translation_panic
    (front : List OpcodeData) (d : OpcodeData)
    (hop : d.opcode = op.JUMPI) (hsj : d.flags.static_jump = true)
    (hij : d.flags.invalid_jump = false) (hdis : d.flags.disabled = false)
    (hsl : d.flags.skip_logic = false) :
    translate (front ++ [d]) = none ∧
    (∀ numOps i, numOps ≤ i + 1 → branch_to_next_opcode numOps i = []) ∧
    (∀ numOps i, i + 1 < numOps → branch_to_next_opcode numOps i = [i + 1]) ∧
    (∀ (numOps i : Nat) (e : OpcodeData), e.opcode ≠ op.JUMP → e.opcode ≠ op.JUMPI →
        translate_opcode_panics numOps i e = false) := by
  refine ⟨?_, ?_, ?_, ?_⟩
  · have hpan : translate_opcode_panics (front.length + 1) front.length d = true := by
      unfold translate_opcode_panics
      rw [if_neg (by simp [hdis]), if_neg (by simp [hsl]),
        if_pos (by right; exact hop), if_neg (by simp [hij]), if_pos hsj]
      have h2 : decide (d.opcode = op.JUMPI) = true := by simp [hop]
      have h3 : decide (front.length + 1 ≤ front.length + 1) = true := by simp
      rw [h2, h3]
      simp
    have hloop : translate_loop (front ++ [d]).length 0 (front ++ [d]) = true := by
      rw [translate_loop_append]
      simp [translate_loop, hpan]
    unfold translate
    rw [if_neg (by simp), if_pos hloop]
  · intro numOps i hle
    unfold branch_to_next_opcode
    rw [if_neg (by omega)]
  · intro numOps i hlt
    unfold branch_to_next_opcode
    rw [if_pos hlt]
  · intro numOps i e h1 h2
    unfold translate_opcode_panics
    split
    · rfl
    · split
      · rfl
      · split
        · rename_i hor
          exact absurd hor (by simp [h1, h2])
        · rfl

/-- C10 witness: the concrete sequence JUMPDEST; PUSH1 0; JUMPI, whose final
opcode is a resolved static JUMPI, fails to translate. -/
theorem C10_last_jumpi_translation_panic_witness :
    translate [⟨op.JUMPDEST, noFlags, 0⟩, ⟨op.PUSH1, noFlags, 1⟩,
      ⟨op.JUMPI, staticJumpFlags, 0⟩] = none :=
  (C10_last_jumpi_translation_panic
    [⟨op.JUMPDEST, noFlags, 0⟩, ⟨op.PUSH1, noFlags, 1⟩]
    ⟨op.JUMPI, staticJumpFlags, 0⟩ rfl rfl rfl rfl rfl).1

end RevmJit
